import Mathlib

/-!
Shallow embedding of the dash-bridge core (TypeScript) in Lean 4, together
with theorems settling the frozen claims about it.

Conventions of the embedding:
* `Uint8Array` values are modelled as `List Nat` (`Bytes`); byte-producing
  operations truncate to the byte/word width exactly where the JavaScript
  `DataView` setters do.
* JavaScript `number` fields are modelled as `Nat` where the program only
  ever stores non-negative integers (lengths, indices, duff amounts read
  from JSON) and as `Int` where the code uses signed/bigint arithmetic.
* `throw` is modelled by `Except String`; `null`/`undefined` by `Option`.
* External npm libraries (`@noble/hashes`, `@noble/secp256k1`, `bs58check`)
  are not part of the repository; functions that call them take the
  corresponding function as an explicit parameter.
* Strings are modelled as `List Char` where the code inspects characters.
-/

namespace DashBridge

abbrev Bytes := List Nat

/-- Little-endian byte encoding of `n`, exactly `w` bytes (the width the
`DataView` setters write; higher bits are discarded as the setters do). -/
def toLEBytes : Nat → Nat → Bytes
  | 0, _ => []
  | w + 1, n => n % 256 :: toLEBytes w (n / 256)

/-! ## Codec (src/transaction/serialize.ts) -/

/-- Embedding of `serCompactSize` from src/transaction/serialize.ts: Bitcoin compact-size
integer encoding. -/
def serCompactSize (n : Nat) : Bytes :=
  if n < 253 then [n]
  else if n < 0x10000 then 253 :: toLEBytes 2 n
  else if n < 0x100000000 then 254 :: toLEBytes 4 n
  else 255 :: toLEBytes 8 n

/-- Embedding of `serString` from src/transaction/serialize.ts: length-prefixed bytes. -/
def serString (data : Bytes) : Bytes :=
  serCompactSize data.length ++ data

/-- Embedding of `serUint32` from src/transaction/serialize.ts (`setUint32` little-endian,
which wraps its argument modulo 2^32; `toLEBytes 4` performs that wrap). -/
def serUint32 (n : Nat) : Bytes := toLEBytes 4 n

/-- Embedding of `serInt32` from src/transaction/serialize.ts (`setInt32` little-endian
stores the two's-complement bit pattern, i.e. the value modulo 2^32). -/
def serInt32 (n : Int) : Bytes := toLEBytes 4 (n % (2 ^ 32)).toNat

/-- Embedding of `serInt64` from src/transaction/serialize.ts (`setBigInt64` little-endian
stores the two's-complement bit pattern, i.e. the value modulo 2^64). -/
def serInt64 (v : Int) : Bytes := toLEBytes 8 (v % (2 ^ 64)).toNat

/-- Embedding of `serByte` from src/transaction/serialize.ts. -/
def serByte (n : Nat) : Bytes := [n % 256]

/-! ## Transaction structures (src/transaction/structures.ts) -/

/-- Embedding of `COutPoint`: txid bytes in internal (reversed) order plus output index. -/
structure COutPoint where
  txid : Bytes
  n : Nat
deriving Repr, DecidableEq

/-- Embedding of `CTxIn`: transaction input. -/
structure CTxIn where
  prevout : COutPoint
  scriptSig : Bytes
  sequence : Nat
deriving Repr, DecidableEq

/-- Embedding of `CTxOut`: transaction output (value in duffs as JS `bigint`). -/
structure CTxOut where
  value : Int
  scriptPubKey : Bytes
deriving Repr, DecidableEq

/-- Embedding of `CAssetLockPayload`: payload of a type-8 transaction. -/
structure CAssetLockPayload where
  version : Nat
  creditOutputs : List CTxOut
deriving Repr, DecidableEq

/-- Embedding of `serializeOutPoint` from src/transaction/structures.ts. -/
def serializeOutPoint (outpoint : COutPoint) : Bytes :=
  outpoint.txid ++ serUint32 outpoint.n

/-- Embedding of `serializeTxIn` from src/transaction/structures.ts. -/
def serializeTxIn (txin : CTxIn) : Bytes :=
  serializeOutPoint txin.prevout ++ serString txin.scriptSig ++ serUint32 txin.sequence

/-- Embedding of `serializeTxOut` from src/transaction/structures.ts. -/
def serializeTxOut (txout : CTxOut) : Bytes :=
  serInt64 txout.value ++ serString txout.scriptPubKey

/-- Embedding of `serializeAssetLockPayload` from src/transaction/structures.ts. -/
def serializeAssetLockPayload (payload : CAssetLockPayload) : Bytes :=
  serByte payload.version ++ serCompactSize payload.creditOutputs.length
    ++ (payload.creditOutputs.map serializeTxOut).flatten

/-- Embedding of `createP2PKHScript` from src/transaction/structures.ts; throws unless the
hash is 20 bytes. -/
def createP2PKHScript (pubKeyHash : Bytes) : Except String Bytes :=
  if pubKeyHash.length ≠ 20 then .error "Public key hash must be 20 bytes"
  else .ok ([0x76, 0xa9, 0x14] ++ pubKeyHash ++ [0x88, 0xac])

/-- Embedding of `createOpReturnScript` from src/transaction/structures.ts. -/
def createOpReturnScript : Bytes := [0x6a, 0x00]

/-! ## Transaction builder (src/transaction/builder.ts) -/

/-- Embedding of `AssetLockTransaction` record from src/transaction/builder.ts. -/
structure AssetLockTransaction where
  version : Nat
  txType : Nat
  vin : List CTxIn
  vout : List CTxOut
  lockTime : Nat
  extraPayload : Bytes
deriving Repr, DecidableEq

/-- The 32-bit word `tx.version | (tx.txType << 16)` with JavaScript `|`/`<<`
semantics on non-negative operands (each operand is taken modulo 2^32 before
the bitwise operation). -/
def ver32bit (version txType : Nat) : Nat :=
  Nat.lor (version % 2 ^ 32) ((txType % 2 ^ 32) * 2 ^ 16 % 2 ^ 32)

/-- Embedding of `serializeTransaction` from src/transaction/builder.ts. Note the extra
payload is appended only when `txType ≠ 0` *and* the payload is non-empty. -/
def serializeTransaction (tx : AssetLockTransaction) : Bytes :=
  toLEBytes 4 (ver32bit tx.version tx.txType)
    ++ serCompactSize tx.vin.length
    ++ (tx.vin.map serializeTxIn).flatten
    ++ serCompactSize tx.vout.length
    ++ (tx.vout.map serializeTxOut).flatten
    ++ serUint32 tx.lockTime
    ++ (if tx.txType ≠ 0 ∧ 0 < tx.extraPayload.length then serString tx.extraPayload else [])

/-- Modelled from the spec: src/utils/hex.ts is not among the provided
sources (only re-exported via src/utils/index.ts).  Spec §4.1: "Hex codec:
lowercase emit, case-insensitive parse, reject odd length."  Value of one
hex digit. -/
def hexVal (c : Char) : Option Nat :=
  if '0' ≤ c ∧ c ≤ '9' then some (c.toNat - '0'.toNat)
  else if 'a' ≤ c ∧ c ≤ 'f' then some (c.toNat - 'a'.toNat + 10)
  else if 'A' ≤ c ∧ c ≤ 'F' then some (c.toNat - 'A'.toNat + 10)
  else none

/-- Modelled from the spec: `hexToBytes` of the missing src/utils/hex.ts,
per spec §4.1 ("case-insensitive parse, reject odd length"). -/
def hexToBytes : List Char → Option Bytes
  | [] => some []
  | [_] => none
  | c1 :: c2 :: rest => do
      let hi ← hexVal c1
      let lo ← hexVal c2
      let tl ← hexToBytes rest
      pure ((hi * 16 + lo) :: tl)

/-- Modelled from the spec: `reverseBytes` of the missing src/utils/hex.ts,
per spec §4.1 ("Bytes reverse: used to convert txids between display order
and internal (wire) order"). -/
def reverseBytes (b : Bytes) : Bytes := b.reverse

/-- Embedding of `UTXO` from src/types.ts (strings as char lists, duff value as the
non-negative JSON number the Insight API returns). -/
structure UTXO where
  txid : List Char
  vout : Nat
  satoshis : Nat
  scriptPubKey : List Char
  confirmations : Nat
deriving Repr, DecidableEq

/-- Embedding of `createAssetLockTransaction` from src/transaction/builder.ts.  The hash160
function (external `@noble/hashes`) is passed in. -/
def createAssetLockTransaction (hash160 : Bytes → Bytes) (utxo : UTXO)
    (assetLockPubKey : Bytes) (fee : Int) : Except String AssetLockTransaction :=
  let utxoAmount : Int := utxo.satoshis
  let lockAmount := utxoAmount - fee
  if lockAmount ≤ 0 then .error "Insufficient funds for asset lock"
  else
    match hexToBytes utxo.txid with
    | none => .error "invalid hex in txid"
    | some b =>
        let txidBytes := reverseBytes b
        let vin : List CTxIn :=
          [{ prevout := { txid := txidBytes, n := utxo.vout }
             scriptSig := []
             sequence := 0xffffffff }]
        let burnOutput : CTxOut := { value := lockAmount, scriptPubKey := createOpReturnScript }
        let vout := [burnOutput]
        let pubKeyHash := hash160 assetLockPubKey
        match createP2PKHScript pubKeyHash with
        | .error e => .error e
        | .ok script =>
            let creditOutput : CTxOut := { value := lockAmount, scriptPubKey := script }
            let payload : CAssetLockPayload := { version := 1, creditOutputs := [creditOutput] }
            .ok { version := 3
                  txType := 8
                  vin := vin
                  vout := vout
                  lockTime := 0
                  extraPayload := serializeAssetLockPayload payload }

/-! ## Signature hash (src/transaction/sighash.ts) -/

/-- The `SIGHASH_ALL` constant. -/
def SIGHASH_ALL : Nat := 0x01

/-- One step of the `for` loop of `signatureHash` that clears every input's
scriptSig. -/
def clearScriptSig (vin : CTxIn) : CTxIn := { vin with scriptSig := [] }

/-- The single index assignment `txCopy.vin[inputIndex].scriptSig = scriptCode`
on a list of inputs. -/
def setScriptSigAt : List CTxIn → Nat → Bytes → List CTxIn
  | [], _, _ => []
  | v :: vs, 0, s => { v with scriptSig := s } :: vs
  | v :: vs, i + 1, s => v :: setScriptSigAt vs i s

/-- Embedding of `signatureHash` from src/transaction/sighash.ts.  `hash256` (double
SHA-256 via external `@noble/hashes`, wrapped by src/crypto/hash.ts) is
passed in.  Cloning is identity on pure values, so `cloneTransaction` has no
counterpart here; the two mutation loops of the source (clear every
scriptSig, then set input `inputIndex`) appear as `List.map` followed by
`setScriptSigAt`. -/
def signatureHash (hash256 : Bytes → Bytes) (tx : AssetLockTransaction)
    (inputIndex : Nat) (scriptCode : Bytes) (sighashType : Nat) : Except String Bytes :=
  if tx.vin.length ≤ inputIndex then .error "Input index out of range"
  else
    let clearedVin := tx.vin.map clearScriptSig
    let newVin := setScriptSigAt clearedVin inputIndex scriptCode
    let txCopy := { tx with vin := newVin }
    .ok (hash256 (serializeTransaction txCopy ++ serUint32 sighashType))

/-! ## Retry engine (src/utils/retry.ts) -/

/-- Embedding of `calculateDelay` from src/utils/retry.ts.  `r` stands for the
`Math.random()` draw in `[0, 1)`; the arithmetic is exact over `ℚ` and the
final `Math.floor` is `Int.floor`. -/
def calculateDelay (attempt baseDelayMs maxDelayMs : Nat) (r : ℚ) : ℤ :=
  let exponentialDelay : ℚ := (baseDelayMs : ℚ) * 2 ^ attempt
  let cappedDelay : ℚ := min exponentialDelay (maxDelayMs : ℚ)
  let jitter : ℚ := r * cappedDelay * (1 / 2)
  ⌊cappedDelay + jitter⌋

/-! ## DPNS contention (src/platform/dpns.ts) -/

/-- Embedding of `convertToHomographSafe` from src/platform/dpns.ts: lowercase, then
`o → 0` and `i`/`l` → `1`. -/
def convertToHomographSafe (label : List Char) : List Char :=
  (label.map Char.toLower).map fun c =>
    if c = 'o' then '0' else if c = 'i' ∨ c = 'l' then '1' else c

/-- One character of the regex class `[a-z01-]`. -/
def isContestedChar (c : Char) : Bool :=
  ('a' ≤ c ∧ c ≤ 'z') ∨ c = '0' ∨ c = '1' ∨ c = '-'

/-- One character of the regex class `[2-9]`. -/
def isDigit2to9 (c : Char) : Bool := '2' ≤ c ∧ c ≤ '9'

/-- Embedding of `isContestedUsername` from src/platform/dpns.ts: length ≥ 20 is
non-contested, a digit 2–9 is non-contested, otherwise contested exactly
when the label matches `^[a-z01-]+$`. -/
def isContestedUsername (normalizedLabel : List Char) : Bool :=
  if normalizedLabel.length ≥ 20 then false
  else if normalizedLabel.any isDigit2to9 then false
  else decide (normalizedLabel ≠ []) && normalizedLabel.all isContestedChar

/-! ## Network configuration (src/config.ts) -/

/-- The two networks. -/
inductive Network where
  | testnet
  | mainnet
deriving Repr, DecidableEq

/-- Embedding of `NetworkConfig` from src/config.ts. -/
structure NetworkConfig where
  name : Network
  insightApiUrl : String
  addressPrefix : Nat
  wifPrefix : Nat
  minFee : Nat
  dustThreshold : Nat
  platformHrp : String
  faucetBaseUrl : Option String
deriving Repr, DecidableEq

/-- Embedding of `TESTNET` from src/config.ts. -/
def TESTNET : NetworkConfig :=
  { name := .testnet
    insightApiUrl := "https://insight.testnet.networks.dash.org/insight-api"
    addressPrefix := 140
    wifPrefix := 239
    minFee := 1000
    dustThreshold := 546
    platformHrp := "tdash"
    faucetBaseUrl := some "https://faucet.thepasta.org" }

/-- Embedding of `MAINNET` from src/config.ts. -/
def MAINNET : NetworkConfig :=
  { name := .mainnet
    insightApiUrl := "https://insight.dash.org/insight-api"
    addressPrefix := 76
    wifPrefix := 204
    minFee := 1000
    dustThreshold := 546
    platformHrp := "dash"
    faucetBaseUrl := none }

/-- Embedding of `getNetwork` from src/config.ts. -/
def getNetwork (name : Network) : NetworkConfig :=
  match name with
  | .mainnet => MAINNET
  | .testnet => TESTNET

/-! ## WIF decoding (src/utils/wif.ts) and key matching (src/crypto/keys.ts) -/

/-- Embedding of `wifToPrivateKey` from src/utils/wif.ts: base58check-decode (external
`bs58check`, passed in; `none` models its checksum exception), then parse
(prefix byte, 32-byte key, optional compression flag). -/
def wifToPrivateKey (b58decode : String → Option Bytes) (wif : String) :
    Except String (Bytes × Bool × Nat) :=
  match b58decode wif with
  | none => .error "bad base58check"
  | some decoded =>
      let pfx := decoded.headD 0
      if decoded.length = 34 ∧ decoded.getD 33 0 = 0x01 then
        .ok ((decoded.drop 1).take 32, true, pfx)
      else if decoded.length = 33 then
        .ok ((decoded.drop 1).take 32, false, pfx)
      else .error "Invalid WIF format"

/-- Embedding of `IdentityPublicKeyInfo` as consumed by `findMatchingKeyIndex` (numeric
type/purpose/securityLevel codes and raw key data bytes). -/
structure IdentityPublicKeyInfo where
  id : Nat
  type : Nat
  purpose : Nat
  securityLevel : Nat
  data : Bytes
deriving Repr, DecidableEq

/-- The value `findMatchingKeyIndex` returns on a match. -/
structure KeyMatch where
  keyId : Nat
  securityLevel : Nat
  purpose : Nat
  publicKey : Bytes
deriving Repr, DecidableEq

/-- The `for (const key of identityPublicKeys)` loop body of
`findMatchingKeyIndex`. -/
def findMatchingKeyLoop (publicKey publicKeyHash : Bytes) :
    List IdentityPublicKeyInfo → Option KeyMatch
  | [] => none
  | key :: rest =>
      if key.type = 0 ∧ publicKey = key.data then
        some { keyId := key.id, securityLevel := key.securityLevel
               purpose := key.purpose, publicKey := publicKey }
      else if key.type = 2 ∧ publicKeyHash = key.data then
        some { keyId := key.id, securityLevel := key.securityLevel
               purpose := key.purpose, publicKey := publicKey }
      else findMatchingKeyLoop publicKey publicKeyHash rest

/-- Embedding of `findMatchingKeyIndex` from src/crypto/keys.ts.  `getPublicKey`
(external `@noble/secp256k1`) and `hash160` (external `@noble/hashes`) are
passed in.  A WIF decode failure *and* a WIF whose prefix byte differs from
the session network's `wifPrefix` both return `none`, the same value as
"no identity key matches". -/
def findMatchingKeyIndex (b58decode : String → Option Bytes)
    (getPublicKey : Bytes → Bytes) (hash160 : Bytes → Bytes)
    (privateKeyWif : String) (identityPublicKeys : List IdentityPublicKeyInfo)
    (network : Network) : Option KeyMatch :=
  match wifToPrivateKey b58decode privateKeyWif with
  | .error _ => none
  | .ok (privateKey, _compressed, pfx) =>
      let networkConfig := getNetwork network
      if pfx ≠ networkConfig.wifPrefix then none
      else
        let publicKey := getPublicKey privateKey
        let publicKeyHash := hash160 publicKey
        findMatchingKeyLoop publicKey publicKeyHash identityPublicKeys

/-! ## Identity key configuration (src/types.ts, src/crypto/keys.ts) -/

/-- Embedding of `KeyType` from src/types.ts. -/
inductive KeyType where
  | ECDSA_SECP256K1
  | ECDSA_HASH160
deriving Repr, DecidableEq

/-- Embedding of `KeyPurpose` from src/types.ts. -/
inductive KeyPurpose where
  | AUTHENTICATION
  | ENCRYPTION
  | TRANSFER
  | VOTING
  | OWNER
deriving Repr, DecidableEq

/-- Embedding of `SecurityLevel` from src/types.ts. -/
inductive SecurityLevel where
  | MASTER
  | CRITICAL
  | HIGH
  | MEDIUM
deriving Repr, DecidableEq

/-- Embedding of `IdentityKeyConfig` from src/types.ts (the derived display strings
`privateKeyHex`/`privateKeyWif`/`publicKeyHex`/`dataBase64` are omitted:
they are recomputed images of `privateKey`/`publicKey` and play no role in
any claim). -/
structure IdentityKeyConfig where
  id : Nat
  name : String
  keyType : KeyType
  purpose : KeyPurpose
  securityLevel : SecurityLevel
  privateKey : Bytes
  publicKey : Bytes
  derivationPath : Option String
deriving Repr, DecidableEq

/-- Result of `deriveIdentityKey` of src/crypto/hd.ts (HD derivation over
external `@scure/bip32`/`@scure/bip39`; passed in as a function). -/
structure DerivedKey where
  privateKey : Bytes
  publicKey : Bytes
  derivationPath : String
deriving Repr, DecidableEq

/-- A derivation oracle standing for `deriveIdentityKey(mnemonic, keyIndex,
network)` of src/crypto/hd.ts. -/
abbrev DeriveFn := String → Nat → Network → DerivedKey

/-- Embedding of `createIdentityKeyFromKeyPair` from src/crypto/keys.ts (restricted to the
modelled fields). -/
def createIdentityKeyFromKeyPair (id : Nat) (name : String) (keyType : KeyType)
    (purpose : KeyPurpose) (securityLevel : SecurityLevel)
    (privateKey publicKey : Bytes) (derivationPath : Option String) :
    IdentityKeyConfig :=
  { id, name, keyType, purpose, securityLevel, privateKey, publicKey, derivationPath }

/-- Embedding of `generateIdentityKeyFromMnemonic` from src/crypto/keys.ts. -/
def generateIdentityKeyFromMnemonic (derive : DeriveFn) (id : Nat) (name : String)
    (keyType : KeyType) (purpose : KeyPurpose) (securityLevel : SecurityLevel)
    (network : Network) (mnemonic : String) (keyIndex : Nat) : IdentityKeyConfig :=
  let d := derive mnemonic keyIndex network
  createIdentityKeyFromKeyPair id name keyType purpose securityLevel
    d.privateKey d.publicKey (some d.derivationPath)

/-- Embedding of `generateDefaultIdentityKeysHD` from src/crypto/keys.ts. -/
def generateDefaultIdentityKeysHD (derive : DeriveFn) (network : Network)
    (mnemonic : String) : List IdentityKeyConfig :=
  [ generateIdentityKeyFromMnemonic derive 0 "Master" .ECDSA_SECP256K1 .AUTHENTICATION .MASTER network mnemonic 0
  , generateIdentityKeyFromMnemonic derive 1 "High Auth" .ECDSA_SECP256K1 .AUTHENTICATION .HIGH network mnemonic 1
  , generateIdentityKeyFromMnemonic derive 2 "Critical Auth" .ECDSA_SECP256K1 .AUTHENTICATION .CRITICAL network mnemonic 2
  , generateIdentityKeyFromMnemonic derive 3 "Transfer" .ECDSA_SECP256K1 .TRANSFER .CRITICAL network mnemonic 3 ]

/-! ## Bridge state (src/types.ts, src/ui/state.ts, manage sub-state) -/

/-- Embedding of `KeyPair` from src/types.ts. -/
structure KeyPair where
  privateKey : Bytes
  publicKey : Bytes
deriving Repr, DecidableEq

/-- Embedding of `ManageNewKeyConfig` from src/types.ts (the key-material fields
`generatedKey`/`importedPublicKeyBase64` are opaque to the modelled
transitions and are omitted). -/
structure ManageNewKeyConfig where
  tempId : String
  keyType : KeyType
  purpose : KeyPurpose
  securityLevel : SecurityLevel
deriving Repr, DecidableEq

/-- Embedding of `BridgeStep` from src/types.ts (the steps the modelled transitions
mention). -/
inductive BridgeStep where
  | init
  | configure_keys
  | generating_keys
  | awaiting_deposit
  | detecting_deposit
  | building_transaction
  | signing_transaction
  | broadcasting
  | waiting_islock
  | registering_identity
  | complete
  | error
deriving Repr, DecidableEq

/-- Embedding of `BridgeState` from src/types.ts, restricted to the fields read or
written by the transitions modelled here.  Every omitted field is carried
unchanged by the TypeScript object spread `{ ...state, ... }` in all of
them. -/
structure BridgeState where
  step : BridgeStep
  network : Network
  mnemonic : Option String
  assetLockKeyPair : Option KeyPair
  identityKeys : List IdentityKeyConfig
  depositAddress : Option String
  detectedUtxo : Option UTXO
  signedTxHex : Option String
  txid : Option String
  depositTimedOut : Option Bool
  detectedDepositAmount : Option Nat
  targetIdentityId : Option String
  manageKeysToAdd : Option (List ManageNewKeyConfig)
deriving Repr, DecidableEq

/-- Embedding of `setDepositTimedOut` from src/ui/state.ts. -/
def setDepositTimedOut (state : BridgeState) (timedOut : Bool)
    (detectedAmount : Option Nat) : BridgeState :=
  { state with depositTimedOut := some timedOut
               detectedDepositAmount := detectedAmount }

/-- Optional-field updates of `updateIdentityKey`, i.e. the TypeScript
`Partial<Pick<IdentityKeyConfig, 'keyType' | 'purpose' | 'securityLevel' |
'name'>>`. -/
structure KeyUpdates where
  keyType : Option KeyType
  purpose : Option KeyPurpose
  securityLevel : Option SecurityLevel
  name : Option String
deriving Repr, DecidableEq

/-- The JavaScript `array.map((x, index) => ...)` callback pattern: indexed
map starting at index `i`. -/
def mapWithIndexFrom (f : Nat → α → β) : Nat → List α → List β
  | _, [] => []
  | i, a :: as => f i a :: mapWithIndexFrom f (i + 1) as

/-- The JavaScript `array.map((x, index) => ...)`. -/
def mapWithIndex (f : Nat → α → β) (l : List α) : List β :=
  mapWithIndexFrom f 0 l

/-- The merge `{ ...key, ...updates }` for `KeyUpdates`. -/
def applyKeyUpdates (key : IdentityKeyConfig) (u : KeyUpdates) : IdentityKeyConfig :=
  { key with keyType := u.keyType.getD key.keyType
             purpose := u.purpose.getD key.purpose
             securityLevel := u.securityLevel.getD key.securityLevel
             name := u.name.getD key.name }

/-- Embedding of `updateIdentityKey` from src/ui/state.ts.  When `keyType` changes the
key is re-derived via HD derivation at its array index; otherwise the
updates are merged in — with no coercion of the security level. -/
def updateIdentityKey (derive : DeriveFn) (state : BridgeState) (keyId : Nat)
    (updates : KeyUpdates) : Except String BridgeState :=
  match state.mnemonic with
  | none => .error "No mnemonic available for HD derivation"
  | some mnemonic =>
      let identityKeys := mapWithIndex
        (fun index key =>
          if key.id ≠ keyId then key
          else
            match updates.keyType with
            | some kt =>
                if kt ≠ key.keyType then
                  generateIdentityKeyFromMnemonic derive key.id
                    (updates.name.getD key.name) kt
                    (updates.purpose.getD key.purpose)
                    (updates.securityLevel.getD key.securityLevel)
                    state.network mnemonic index
                else applyKeyUpdates key updates
            | none => applyKeyUpdates key updates)
        state.identityKeys
      .ok { state with identityKeys := identityKeys }

/-- Embedding of `addIdentityKey` from src/ui/state.ts (`Math.max(...ids) + 1` over the
non-empty id list is the fold below). -/
def addIdentityKey (derive : DeriveFn) (state : BridgeState) :
    Except String BridgeState :=
  match state.mnemonic with
  | none => .error "No mnemonic available for HD derivation"
  | some mnemonic =>
      let nextId := (state.identityKeys.map (·.id)).foldl Nat.max 0 + 1
      let keyIndex := state.identityKeys.length
      let newKey := generateIdentityKeyFromMnemonic derive nextId
        ("Key " ++ toString nextId) .ECDSA_SECP256K1 .AUTHENTICATION .HIGH
        state.network mnemonic keyIndex
      .ok { state with identityKeys := state.identityKeys ++ [newKey] }

/-- Embedding of `removeIdentityKey` from src/ui/state.ts: refuses to remove the last
key, otherwise filters out every key whose `id` equals `keyId`. -/
def removeIdentityKey (state : BridgeState) (keyId : Nat) : BridgeState :=
  if state.identityKeys.length ≤ 1 then state
  else { state with identityKeys := state.identityKeys.filter fun k => k.id ≠ keyId }

/-- Optional-field updates for `updateManageNewKey`, i.e. the TypeScript
`Partial<ManageNewKeyConfig>` over the modelled fields. -/
structure ManageKeyUpdates where
  keyType : Option KeyType
  purpose : Option KeyPurpose
  securityLevel : Option SecurityLevel
deriving Repr, DecidableEq

/-- Embedding of `updateManageNewKey` from the manage sub-state module: merges the
updates into the matching pending key and silently coerces the security
level to `CRITICAL` whenever the effective purpose is `TRANSFER` with a
non-`CRITICAL` effective level. -/
def updateManageNewKey (state : BridgeState) (tempId : String)
    (updates : ManageKeyUpdates) : BridgeState :=
  { state with manageKeysToAdd := some <| (state.manageKeysToAdd.getD []).map fun k =>
      if k.tempId ≠ tempId then k
      else
        let effectivePurpose := updates.purpose.getD k.purpose
        let lvl := updates.securityLevel.getD k.securityLevel
        let effectiveSecurityLevel :=
          if effectivePurpose = .TRANSFER ∧ lvl ≠ .CRITICAL then .CRITICAL else lvl
        { k with keyType := updates.keyType.getD k.keyType
                 purpose := effectivePurpose
                 securityLevel := effectiveSecurityLevel } }

/-! ## Polling loops (InsightClient.waitForUtxo, DAPIClient.waitForInstantSendLock)

The loops poll until an overall deadline; the embedding replaces real time
by the finite list of poll outcomes observed before the deadline (`none`
models a `getUTXOs` exception), plus the outcome of the final
check-on-timeout. -/

/-- Result record of `waitForUtxo`. -/
structure WaitUtxoResult where
  utxo : Option UTXO
  totalAmount : Nat
  timedOut : Bool
deriving Repr, DecidableEq

/-- The JavaScript `utxos.reduce((max, u) => u.satoshis > max.satoshis ? u :
max, utxos[0])` (on the empty list `utxos[0]` is `undefined`). -/
def largestUtxo : List UTXO → Option UTXO
  | [] => none
  | u :: us =>
      some ((u :: us).foldl (fun mx v => if v.satoshis > mx.satoshis then v else mx) u)

/-- The polling loop of `InsightClient.waitForUtxo`, carrying
`lastTotalAmount`.  When the polls are exhausted (the deadline), one final
listing is attempted: on success its total is reported, on failure the last
known total — in both cases with `utxo := none` and `timedOut := true`. -/
def waitForUtxoLoop (minAmount lastTotalAmount : Nat) :
    List (Option (List UTXO)) → Option (List UTXO) → WaitUtxoResult
  | [], some utxos =>
      { utxo := none, totalAmount := (utxos.map (·.satoshis)).sum, timedOut := true }
  | [], none => { utxo := none, totalAmount := lastTotalAmount, timedOut := true }
  | some utxos :: rest, finalPoll =>
      if (utxos.map (·.satoshis)).sum ≥ minAmount then
        { utxo := largestUtxo utxos
          totalAmount := (utxos.map (·.satoshis)).sum
          timedOut := false }
      else waitForUtxoLoop minAmount ((utxos.map (·.satoshis)).sum) rest finalPoll
  | none :: rest, finalPoll => waitForUtxoLoop minAmount lastTotalAmount rest finalPoll

/-- Embedding of `InsightClient.waitForUtxo` (initial `lastTotalAmount = 0`). -/
def waitForUtxo (minAmount : Nat) (polls : List (Option (List UTXO)))
    (finalPoll : Option (List UTXO)) : WaitUtxoResult :=
  waitForUtxoLoop minAmount 0 polls finalPoll

/-- Embedding of `DAPIClient.waitForInstantSendLock`: each poll of `getIslock` yields
islock bytes, `null`, or an exception; when the polls are exhausted the
function *throws* a timeout error (`Except.error`). -/
def waitForInstantSendLock (txid : String) (timeoutMs : Nat)
    (polls : List (Except String (Option Bytes))) : Except String Bytes :=
  match polls with
  | [] =>
      .error ("Timeout waiting for InstantSend lock for " ++ txid ++ " after "
        ++ toString timeoutMs ++ "ms")
  | poll :: rest =>
      match poll with
      | .ok (some islock) => .ok islock
      | .ok none => waitForInstantSendLock txid timeoutMs rest
      | .error _ => waitForInstantSendLock txid timeoutMs rest

/-! ## Claim-side serialization (spec §4.5 wording) -/

/-- Serialization exactly as claim C2 words it: the length-prefixed extra
payload is appended whenever `txType ≠ 0` — including an empty payload. -/
def claimSerializeTransaction (tx : AssetLockTransaction) : Bytes :=
  serInt32 ((Nat.lor tx.version (tx.txType <<< 16) : Nat) : Int)
    ++ serCompactSize tx.vin.length
    ++ (tx.vin.map serializeTxIn).flatten
    ++ serCompactSize tx.vout.length
    ++ (tx.vout.map serializeTxOut).flatten
    ++ serUint32 tx.lockTime
    ++ (if tx.txType ≠ 0 then serString tx.extraPayload else [])

/-- Serialization as claim C2 reads after amending the extra-payload
condition to what the code tests: `txType ≠ 0` *and* non-empty payload. -/
def specSerializeTransaction (tx : AssetLockTransaction) : Bytes :=
  serInt32 ((Nat.lor tx.version (tx.txType <<< 16) : Nat) : Int)
    ++ serCompactSize tx.vin.length
    ++ (tx.vin.map serializeTxIn).flatten
    ++ serCompactSize tx.vout.length
    ++ (tx.vout.map serializeTxOut).flatten
    ++ serUint32 tx.lockTime
    ++ (if tx.txType ≠ 0 ∧ tx.extraPayload ≠ [] then serString tx.extraPayload else [])

/-- A type-8 transaction with an empty extra payload (the case on which the
code and claim C2 disagree). -/
def emptyPayloadTx : AssetLockTransaction :=
  { version := 3, txType := 8, vin := [], vout := [], lockTime := 0, extraPayload := [] }

/-! ## Supporting lemmas -/

theorem serInt32_natCast (m : Nat) : serInt32 (m : Int) = toLEBytes 4 (m % 2 ^ 32) := by
  unfold serInt32
  norm_cast

theorem shiftLeft16_lt (t : Nat) (ht : t < 2 ^ 16) : t <<< 16 < 2 ^ 32 := by
  rw [Nat.shiftLeft_eq]
  have h16 : (2 : Nat) ^ 16 = 65536 := by norm_num
  have h32 : (2 : Nat) ^ 32 = 65536 * 65536 := by norm_num
  rw [h16] at ht ⊢
  rw [h32]
  exact Nat.mul_lt_mul_of_lt_of_le ht (le_refl _) (by norm_num)

theorem ver32bit_of_lt (v t : Nat) (hv : v < 2 ^ 16) (ht : t < 2 ^ 16) :
    ver32bit v t = Nat.lor v (t <<< 16) := by
  unfold ver32bit
  have h1 : v < 2 ^ 32 := lt_trans hv (by norm_num)
  have h2 : t < 2 ^ 32 := lt_trans ht (by norm_num)
  have h3 : t * 2 ^ 16 < 2 ^ 32 := by
    have := shiftLeft16_lt t ht
    rwa [Nat.shiftLeft_eq] at this
  rw [Nat.mod_eq_of_lt h1, Nat.mod_eq_of_lt h2, Nat.mod_eq_of_lt h3, Nat.shiftLeft_eq]

theorem lor_lt_two_pow_32 (v t : Nat) (hv : v < 2 ^ 16) (ht : t < 2 ^ 16) :
    Nat.lor v (t <<< 16) < 2 ^ 32 := by
  exact Nat.or_lt_two_pow (lt_trans hv (by norm_num)) (shiftLeft16_lt t ht)

/-! ## Claim theorems -/

/-- Claim C2 counterexample: on a type-8 transaction whose `extraPayload` is
empty, `serializeTransaction` omits the length-prefixed payload that the
claim's formula (extra payload appended whenever `txType ≠ 0`) prescribes. -/
theorem serializeTransaction_ne_claim_on_empty_payload :
    serializeTransaction emptyPayloadTx ≠ claimSerializeTransaction emptyPayloadTx := by
  decide

/-- Claim C2 (amended): for every transaction (16-bit version and txType
fields), `serializeTransaction` is the concatenation of the
`version | (txType << 16)` word as i32 little-endian, the compact-size input
count, the inputs in order, the compact-size output count, the outputs in
order, the u32 little-endian lockTime and — whenever `txType ≠ 0` *and* the
extra payload is non-empty — the length-prefixed extra payload. -/
theorem serializeTransaction_spec (tx : AssetLockTransaction)
    (hv : tx.version < 2 ^ 16) (ht : tx.txType < 2 ^ 16) :
    serializeTransaction tx = specSerializeTransaction tx := by
  unfold serializeTransaction specSerializeTransaction
  rw [serInt32_natCast, Nat.mod_eq_of_lt (lor_lt_two_pow_32 _ _ hv ht),
      ver32bit_of_lt _ _ hv ht]
  have hiff : (tx.txType ≠ 0 ∧ 0 < tx.extraPayload.length) ↔
      (tx.txType ≠ 0 ∧ tx.extraPayload ≠ []) := by
    constructor
    · rintro ⟨h1, h2⟩
      exact ⟨h1, List.ne_nil_of_length_pos h2⟩
    · rintro ⟨h1, h2⟩
      exact ⟨h1, List.length_pos_of_ne_nil h2⟩
  simp only [hiff]

/-- Claim C2 witness: the amended serialization formula evaluated on a
concrete transaction with one input, one output and a non-empty payload. -/
theorem serializeTransaction_spec_witness :
    serializeTransaction
      { version := 3, txType := 8
        vin := [{ prevout := { txid := List.replicate 32 0xaa, n := 0 }
                  scriptSig := [], sequence := 0xffffffff }]
        vout := [{ value := 399000, scriptPubKey := [0x6a, 0x00] }]
        lockTime := 0, extraPayload := [1, 0] } =
      specSerializeTransaction
        { version := 3, txType := 8
          vin := [{ prevout := { txid := List.replicate 32 0xaa, n := 0 }
                    scriptSig := [], sequence := 0xffffffff }]
          vout := [{ value := 399000, scriptPubKey := [0x6a, 0x00] }]
          lockTime := 0, extraPayload := [1, 0] } :=
  serializeTransaction_spec _ (by decide) (by decide)

/-- Claim C4: `setDepositTimedOut` changes only `depositTimedOut` and
`detectedDepositAmount`; in particular `assetLockKeyPair`, `depositAddress`,
`mnemonic`, `identityKeys`, `step` and `network` are unchanged, so the
asset-lock key material and deposit address survive a deposit recheck. -/
theorem setDepositTimedOut_frame (s : BridgeState) (timedOut : Bool)
    (amount : Option Nat) :
    setDepositTimedOut s timedOut amount =
      { s with depositTimedOut := some timedOut, detectedDepositAmount := amount } ∧
    (setDepositTimedOut s timedOut amount).assetLockKeyPair = s.assetLockKeyPair ∧
    (setDepositTimedOut s timedOut amount).depositAddress = s.depositAddress ∧
    (setDepositTimedOut s timedOut amount).mnemonic = s.mnemonic ∧
    (setDepositTimedOut s timedOut amount).identityKeys = s.identityKeys ∧
    (setDepositTimedOut s timedOut amount).step = s.step ∧
    (setDepositTimedOut s timedOut amount).network = s.network :=
  ⟨rfl, rfl, rfl, rfl, rfl, rfl, rfl⟩

/-- Claim C8 (code bug): `isContestedUsername` answers `true` on the
normalized two-character label "ab", although both its own documentation
("Contested: 3-19 chars ...") and the spec's contention rule require a
length of at least 3. -/
theorem isContestedUsername_true_below_min_length :
    convertToHomographSafe ['a', 'b'] = ['a', 'b'] ∧
    isContestedUsername ['a', 'b'] = true ∧
    ¬ 3 ≤ (['a', 'b'] : List Char).length := by
  refine ⟨?_, by decide, by decide⟩
  decide

theorem waitForUtxoLoop_timeout (minAmount t : Nat) (polls : List (Option (List UTXO)))
    (finalPoll : Option (List UTXO))
    (h : ∀ utxos, some utxos ∈ polls → (utxos.map (·.satoshis)).sum < minAmount) :
    (waitForUtxoLoop minAmount t polls finalPoll).utxo = none ∧
    (waitForUtxoLoop minAmount t polls finalPoll).timedOut = true := by
  induction polls generalizing t with
  | nil => cases finalPoll <;> simp [waitForUtxoLoop]
  | cons p rest ih =>
      cases p with
      | none =>
          exact ih t fun u hu => h u (List.mem_cons_of_mem _ hu)
      | some utxos =>
          have hlt := h utxos (List.mem_cons_self _ _)
          have hni : ¬ ((utxos.map (·.satoshis)).sum ≥ minAmount) := Nat.not_le.mpr hlt
          simp only [waitForUtxoLoop, hni, if_false]
          exact ih _ fun u hu => h u (List.mem_cons_of_mem _ hu)

theorem waitForInstantSendLock_throws (txid : String) (timeoutMs : Nat)
    (polls : List (Except String (Option Bytes)))
    (h : ∀ b, Except.ok (some b) ∉ polls) :
    waitForInstantSendLock txid timeoutMs polls =
      .error ("Timeout waiting for InstantSend lock for " ++ txid ++ " after "
        ++ toString timeoutMs ++ "ms") := by
  induction polls with
  | nil => rfl
  | cons p rest ih =>
      have hrest : ∀ b, Except.ok (some b) ∉ rest := fun b hb =>
        h b (List.mem_cons_of_mem _ hb)
      match p with
      | .ok (some b) => exact absurd (List.mem_cons_self _ _) (h b)
      | .ok none => exact ih hrest
      | .error e => exact ih hrest

/-- Claim C5 counterexample: `waitForInstantSendLock` does not return a
value on timeout — after polls that never produce an islock it throws
(models the `throw new Error(...)` at the end of the loop). -/
theorem waitForInstantSendLock_timeout_is_error :
    waitForInstantSendLock "abc123" 60000 [Except.error "fetch failed", Except.ok none] =
      .error "Timeout waiting for InstantSend lock for abc123 after 60000ms" := rfl

/-- Claim C5 (amended): on timeout, `waitForUtxo` returns the value
`{utxo := none, totalAmount, timedOut := true}` whether or not the final
listing succeeds, while `waitForInstantSendLock` instead throws a timeout
error. -/
theorem wait_timeout_behaviour :
    (∀ (minAmount : Nat) (polls : List (Option (List UTXO)))
        (finalPoll : Option (List UTXO)),
      (∀ utxos, some utxos ∈ polls → (utxos.map (·.satoshis)).sum < minAmount) →
      (waitForUtxo minAmount polls finalPoll).utxo = none ∧
      (waitForUtxo minAmount polls finalPoll).timedOut = true) ∧
    (∀ (txid : String) (timeoutMs : Nat) (polls : List (Except String (Option Bytes))),
      (∀ b, Except.ok (some b) ∉ polls) →
      waitForInstantSendLock txid timeoutMs polls =
        .error ("Timeout waiting for InstantSend lock for " ++ txid ++ " after "
          ++ toString timeoutMs ++ "ms")) :=
  ⟨fun minAmount polls finalPoll h => waitForUtxoLoop_timeout minAmount 0 polls finalPoll h,
   waitForInstantSendLock_throws⟩

/-- Claim C5 witness: the amended timeout behaviour evaluated on concrete
poll traces — `waitForUtxo` with one empty listing, a failing poll and a
failing final listing returns a value with `timedOut = true`; the islock
wait with an empty and a failing poll throws. -/
theorem wait_timeout_behaviour_witness :
    ((waitForUtxo 300000 [some [], none] none).utxo = none ∧
     (waitForUtxo 300000 [some [], none] none).timedOut = true) ∧
    waitForInstantSendLock "tx0" 60000 [Except.ok none] =
      .error "Timeout waiting for InstantSend lock for tx0 after 60000ms" :=
  ⟨wait_timeout_behaviour.1 300000 [some [], none] none
    (by
      intro utxos hu
      rcases List.mem_cons.mp hu with h1 | h1
      · cases Option.some.inj h1
        decide
      · simp at h1),
   wait_timeout_behaviour.2 "tx0" 60000 [Except.ok none]
    (by
      intro b hb
      simp at hb)⟩

/-- Claim C7 counterexample: with base 1000 ms, cap 10000 ms, attempt 4 and
jitter draw 0 the computed delay is the cap 10000, strictly below the
claimed lower bound `b·2^a = 16000`. -/
theorem calculateDelay_below_claimed_lower_bound :
    calculateDelay 4 1000 10000 0 = 10000 ∧
    ¬ ((1000 * 2 ^ 4 : ℤ) ≤ calculateDelay 4 1000 10000 0) := by
  have h : calculateDelay 4 1000 10000 0 = 10000 := by
    unfold calculateDelay
    norm_num
  refine ⟨h, ?_⟩
  rw [h]
  norm_num

/-- Claim C7 (amended): for every attempt `a`, base `b > 0`, cap `M > 0` and
jitter draw `r ∈ [0, 1)`, the delay satisfies
`min(b·2^a, M) ≤ delay ≤ 1.5·min(b·2^a, M)` (the claimed lower bound
`b·2^a` fails whenever `b·2^a > M`, where the cap bites first). -/
theorem calculateDelay_bounds (a b M : Nat) (r : ℚ) (hb : 0 < b) (hM : 0 < M)
    (hr0 : 0 ≤ r) (hr1 : r < 1) :
    ((min (b * 2 ^ a) M : Nat) : ℤ) ≤ calculateDelay a b M r ∧
    ((calculateDelay a b M r : ℤ) : ℚ) ≤ 3 / 2 * min ((b : ℚ) * 2 ^ a) (M : ℚ) := by
  unfold calculateDelay
  have hcast : ((min (b * 2 ^ a) M : Nat) : ℚ) = min ((b : ℚ) * 2 ^ a) (M : ℚ) := by
    push_cast
    rfl
  set c : ℚ := min ((b : ℚ) * 2 ^ a) (M : ℚ) with hc
  have hc0 : 0 ≤ c := le_min (by positivity) (by positivity)
  constructor
  · rw [Int.le_floor]
    push_cast [hcast]
    nlinarith
  · have hfloor : ((⌊c + r * c * (1 / 2)⌋ : ℤ) : ℚ) ≤ c + r * c * (1 / 2) :=
      Int.floor_le _
    calc ((⌊c + r * c * (1 / 2)⌋ : ℤ) : ℚ) ≤ c + r * c * (1 / 2) := hfloor
      _ ≤ 3 / 2 * c := by nlinarith

/-- Claim C7 witness: the amended bounds evaluated at attempt 2, base 1000,
cap 10000 and jitter draw 1/3. -/
theorem calculateDelay_bounds_witness :
    ((min (1000 * 2 ^ 2) 10000 : Nat) : ℤ) ≤ calculateDelay 2 1000 10000 (1 / 3) ∧
    ((calculateDelay 2 1000 10000 (1 / 3) : ℤ) : ℚ) ≤
      3 / 2 * min ((1000 : ℚ) * 2 ^ 2) (10000 : ℚ) :=
  calculateDelay_bounds 2 1000 10000 (1 / 3) (by norm_num) (by norm_num)
    (by norm_num) (by norm_num)

/-! ## Concrete sample inputs used by several concrete theorems -/

/-- A minimal identity key record for concrete states. -/
def sampleKey (id : Nat) (purpose : KeyPurpose) (securityLevel : SecurityLevel) :
    IdentityKeyConfig :=
  { id := id, name := "k", keyType := .ECDSA_SECP256K1, purpose := purpose
    securityLevel := securityLevel, privateKey := [], publicKey := []
    derivationPath := none }

/-- A minimal bridge state holding the given identity keys. -/
def sampleState (keys : List IdentityKeyConfig) : BridgeState :=
  { step := .configure_keys, network := .testnet, mnemonic := some "m"
    assetLockKeyPair := none, identityKeys := keys, depositAddress := none
    detectedUtxo := none, signedTxHex := none, txid := none
    depositTimedOut := none, detectedDepositAmount := none
    targetIdentityId := none, manageKeysToAdd := none }

/-- Base58check-decode oracle for concrete WIF scenarios: one syntactically
valid compressed-key WIF carrying the mainnet prefix byte 204 and one
carrying the testnet prefix byte 239. -/
def b58decodeSample : String → Option Bytes := fun s =>
  if s = "mainnetWif" then some (204 :: (List.replicate 32 7 ++ [1]))
  else if s = "testnetWifNoMatch" then some (239 :: (List.replicate 32 9 ++ [1]))
  else none

/-- Public-key oracle for concrete WIF scenarios. -/
def getPublicKeySample : Bytes → Bytes := fun sk => 2 :: sk

/-- hash160 oracle for concrete WIF scenarios. -/
def hash160Sample : Bytes → Bytes := fun pk => pk.take 20

/-- One on-chain identity key of type `ECDSA_SECP256K1` (code 0) whose data
equals the public key the mainnet sample WIF derives to. -/
def identityKeysSample : List IdentityPublicKeyInfo :=
  [{ id := 3, type := 0, purpose := 0, securityLevel := 0
     data := 2 :: List.replicate 32 7 }]

/-- Claim C9 counterexample: under the session network `testnet` the
mainnet-prefix WIF — whose key material does match identity key 3, as the
first conjunct shows under `mainnet` — produces the same result `none` as a
same-network WIF matching no key at all; `findMatchingKeyIndex` has no
distinct `WifNetworkMismatch` outcome. -/
theorem findMatchingKeyIndex_mismatch_indistinguishable :
    findMatchingKeyIndex b58decodeSample getPublicKeySample hash160Sample
      "mainnetWif" identityKeysSample .mainnet =
      some { keyId := 3, securityLevel := 0, purpose := 0
             publicKey := 2 :: List.replicate 32 7 } ∧
    findMatchingKeyIndex b58decodeSample getPublicKeySample hash160Sample
      "mainnetWif" identityKeysSample .testnet = none ∧
    findMatchingKeyIndex b58decodeSample getPublicKeySample hash160Sample
      "testnetWifNoMatch" identityKeysSample .testnet = none := by
  refine ⟨?_, ?_, ?_⟩ <;> decide

/-- Claim C9 (amended): a WIF whose prefix byte differs from the session
network's `wifPrefix` makes `findMatchingKeyIndex` return `none` before any
key comparison — the *same* value returned when no identity key matches, so
the two failures are not distinguishable from this function's result. -/
theorem findMatchingKeyIndex_network_mismatch_none (b58decode : String → Option Bytes)
    (getPublicKey hash160 : Bytes → Bytes) (wif : String)
    (keys : List IdentityPublicKeyInfo) (network : Network)
    (sk : Bytes) (c : Bool) (p : Nat)
    (hdec : wifToPrivateKey b58decode wif = .ok (sk, c, p))
    (hp : p ≠ (getNetwork network).wifPrefix) :
    findMatchingKeyIndex b58decode getPublicKey hash160 wif keys network = none := by
  unfold findMatchingKeyIndex
  rw [hdec]
  simp [hp]

/-- Claim C9 witness: the amended statement applied to the concrete
mainnet-prefix WIF under the testnet session. -/
theorem findMatchingKeyIndex_network_mismatch_none_witness :
    findMatchingKeyIndex b58decodeSample getPublicKeySample hash160Sample
      "mainnetWif" identityKeysSample .testnet = none :=
  findMatchingKeyIndex_network_mismatch_none b58decodeSample getPublicKeySample
    hash160Sample "mainnetWif" identityKeysSample .testnet
    (List.replicate 32 7) true 204 (by rfl) (by decide)

/-- Claim C10 counterexample: on a state whose two identity keys share the
id 5 — representable in `BridgeState`, though not reachable through the
transitions — `removeIdentityKey` empties the key list. -/
theorem removeIdentityKey_can_empty :
    (sampleState [sampleKey 5 .AUTHENTICATION .MASTER,
                  sampleKey 5 .AUTHENTICATION .HIGH]).identityKeys ≠ [] ∧
    (removeIdentityKey
      (sampleState [sampleKey 5 .AUTHENTICATION .MASTER,
                    sampleKey 5 .AUTHENTICATION .HIGH]) 5).identityKeys = [] := by
  refine ⟨?_, ?_⟩ <;> decide

theorem filter_id_ne_nil (l : List IdentityKeyConfig) (keyId : Nat)
    (hnodup : (l.map (·.id)).Nodup) (hlen : 2 ≤ l.length) :
    l.filter (fun k => k.id ≠ keyId) ≠ [] := by
  match l, hlen with
  | [], h => exact absurd h (by decide)
  | [a], h => exact absurd h (by simp)
  | a :: b :: rest, _ =>
    by_cases ha : a.id = keyId
    · have hb : b.id ≠ keyId := by
        intro hb
        rw [List.map_cons, List.nodup_cons] at hnodup
        apply hnodup.1
        rw [List.map_cons]
        have : a.id = b.id := by rw [ha, hb]
        rw [this]
        exact List.mem_cons_self _ _
      exact List.ne_nil_of_mem (List.mem_filter.mpr
        ⟨List.mem_cons_of_mem _ (List.mem_cons_self _ _), by simpa using hb⟩)
    · exact List.ne_nil_of_mem (List.mem_filter.mpr
        ⟨List.mem_cons_self _ _, by simpa using ha⟩)

/-- Claim C10 (amended): on every state whose identity-key ids are pairwise
distinct — as they are in every state the public transitions produce —
`removeIdentityKey` keeps a non-empty key list non-empty, and on a state
with exactly one key it returns the state unchanged for every `keyId`. -/
theorem removeIdentityKey_preserves_nonempty (s : BridgeState) (keyId : Nat)
    (hnodup : (s.identityKeys.map (·.id)).Nodup) (hne : s.identityKeys ≠ []) :
    (removeIdentityKey s keyId).identityKeys ≠ [] ∧
    (s.identityKeys.length = 1 → removeIdentityKey s keyId = s) := by
  constructor
  · unfold removeIdentityKey
    by_cases h : s.identityKeys.length ≤ 1
    · rw [if_pos h]
      exact hne
    · rw [if_neg h]
      show s.identityKeys.filter (fun k => k.id ≠ keyId) ≠ []
      exact filter_id_ne_nil _ keyId hnodup (by omega)
  · intro h1
    unfold removeIdentityKey
    rw [if_pos (by omega)]

/-- Claim C10 witness: the amended statement applied to a concrete
two-key state with distinct ids. -/
theorem removeIdentityKey_preserves_nonempty_witness :
    (removeIdentityKey
      (sampleState [sampleKey 0 .AUTHENTICATION .MASTER,
                    sampleKey 1 .TRANSFER .CRITICAL]) 1).identityKeys ≠ [] :=
  (removeIdentityKey_preserves_nonempty
    (sampleState [sampleKey 0 .AUTHENTICATION .MASTER,
                  sampleKey 1 .TRANSFER .CRITICAL]) 1
    (by decide) (by decide)).1

/-- Claim C1: `createAssetLockTransaction` fails with the insufficient-funds
error when `utxo.satoshis - fee ≤ 0`, and otherwise returns the type-8
transaction with version 3, lockTime 0, exactly one input whose outpoint is
`(reverse (hexDecode utxo.txid), utxo.vout)` with empty scriptSig and
sequence `0xffffffff`, exactly one wire output of `utxo.satoshis - fee`
duffs with script `6a 00`, and extra payload the serialized asset-lock
payload of version 1 whose single credit output carries the same amount to
`76 a9 14 (hash160 pk) 88 ac`. -/
theorem createAssetLockTransaction_spec (hash160 : Bytes → Bytes) (utxo : UTXO)
    (pk : Bytes) (fee : Int) (bs : Bytes)
    (hhex : hexToBytes utxo.txid = some bs)
    (hlen : (hash160 pk).length = 20) :
    ((utxo.satoshis : Int) - fee ≤ 0 →
      createAssetLockTransaction hash160 utxo pk fee =
        .error "Insufficient funds for asset lock") ∧
    (0 < (utxo.satoshis : Int) - fee →
      createAssetLockTransaction hash160 utxo pk fee = .ok
        { version := 3, txType := 8
          vin := [{ prevout := { txid := reverseBytes bs, n := utxo.vout }
                    scriptSig := [], sequence := 0xffffffff }]
          vout := [{ value := (utxo.satoshis : Int) - fee
                     scriptPubKey := [0x6a, 0x00] }]
          lockTime := 0
          extraPayload := serializeAssetLockPayload
            { version := 1
              creditOutputs := [{ value := (utxo.satoshis : Int) - fee
                                  scriptPubKey :=
                                    [0x76, 0xa9, 0x14] ++ hash160 pk ++ [0x88, 0xac] }] } }) := by
  constructor
  · intro hle
    unfold createAssetLockTransaction
    rw [if_pos hle]
  · intro hpos
    unfold createAssetLockTransaction
    rw [if_neg (by omega), hhex]
    simp [createP2PKHScript, createOpReturnScript, hlen]

/-- The concrete UTXO used to evaluate claim C1. -/
def c1Utxo : UTXO :=
  { txid := ['a', 'b'], vout := 0, satoshis := 400000
    scriptPubKey := [], confirmations := 1 }

/-- Claim C1 witness: the construction succeeds on a concrete UTXO of
400000 duffs with fee 1000. -/
theorem createAssetLockTransaction_spec_witness :
    (createAssetLockTransaction (fun _ => List.replicate 20 2) c1Utxo
      (List.replicate 33 3) 1000).isOk = true := by
  rw [(createAssetLockTransaction_spec (fun _ => List.replicate 20 2) c1Utxo
    (List.replicate 33 3) 1000 [171] (by rfl) (by decide)).2 (by decide)]
  rfl

/-! Supporting lemmas for the signature-hash claim. -/

theorem mapWithIndexFrom_clear_of_lt (S : Bytes) (i : Nat) :
    ∀ (l : List CTxIn) (k : Nat), i < k →
      mapWithIndexFrom
        (fun j v => { v with scriptSig := if j = i then S else [] }) k l =
      l.map clearScriptSig := by
  intro l
  induction l with
  | nil => intro k _; rfl
  | cons a rest ih =>
      intro k hk
      simp only [mapWithIndexFrom, List.map_cons]
      rw [if_neg (by omega), ih (k + 1) (by omega)]
      rfl

theorem setScriptSigAt_map_clear (S : Bytes) :
    ∀ (l : List CTxIn) (i k : Nat),
      setScriptSigAt (l.map clearScriptSig) i S =
        mapWithIndexFrom
          (fun j v => { v with scriptSig := if j = k + i then S else [] }) k l := by
  intro l
  induction l with
  | nil => intro i k; rfl
  | cons a rest ih =>
      intro i k
      cases i with
      | zero =>
          simp only [List.map_cons, setScriptSigAt, mapWithIndexFrom]
          rw [if_pos (by omega : k = k + 0),
              mapWithIndexFrom_clear_of_lt S (k + 0) rest (k + 1) (by omega)]
          rfl
      | succ n =>
          simp only [List.map_cons, setScriptSigAt, mapWithIndexFrom]
          rw [if_neg (by omega : ¬ k = k + (n + 1))]
          have h := ih n (k + 1)
          rw [show k + 1 + n = k + (n + 1) by omega] at h
          rw [h]
          rfl

/-- Claim C3: for input index `i < |vin|` and scriptCode `S`,
`signatureHash tx i S SIGHASH_ALL` is `hash256` of the serialization of the
transaction whose inputs all have empty scriptSig except input `i`, whose
scriptSig is `S`, concatenated with the u32 little-endian sighash type 1;
an index `i ≥ |vin|` fails with an error.  (The original `tx` is a pure
value here, so it is unchanged by construction.) -/
theorem signatureHash_spec (hash256 : Bytes → Bytes) (tx : AssetLockTransaction)
    (i : Nat) (S : Bytes) :
    (i < tx.vin.length →
      signatureHash hash256 tx i S SIGHASH_ALL = .ok (hash256
        (serializeTransaction
          { tx with
              vin := mapWithIndex
                (fun j v => { v with scriptSig := if j = i then S else [] })
                tx.vin }
          ++ serUint32 1))) ∧
    (tx.vin.length ≤ i →
      signatureHash hash256 tx i S SIGHASH_ALL = .error "Input index out of range") := by
  constructor
  · intro hlt
    unfold signatureHash
    rw [if_neg (by omega)]
    show Except.ok (hash256 (serializeTransaction
        { tx with vin := setScriptSigAt (tx.vin.map clearScriptSig) i S }
      ++ serUint32 SIGHASH_ALL)) = _
    unfold mapWithIndex
    rw [setScriptSigAt_map_clear S tx.vin i 0]
    simp only [Nat.zero_add]
    rfl
  · intro hge
    unfold signatureHash
    rw [if_pos hge]

/-- The concrete single-input transaction used to evaluate claim C3. -/
def c3Tx : AssetLockTransaction :=
  { version := 3, txType := 8
    vin := [{ prevout := { txid := List.replicate 32 0xaa, n := 0 }
              scriptSig := [9, 9], sequence := 0xffffffff }]
    vout := [{ value := 399000, scriptPubKey := [0x6a, 0x00] }]
    lockTime := 0, extraPayload := [1, 0] }

/-- Claim C3 witness: the signature hash of the concrete transaction at
input 0 succeeds and the out-of-range index 1 fails. -/
theorem signatureHash_spec_witness :
    (signatureHash (fun b => b) c3Tx 0 [7, 7] SIGHASH_ALL).isOk = true ∧
    signatureHash (fun b => b) c3Tx 1 [7, 7] SIGHASH_ALL =
      .error "Input index out of range" := by
  constructor
  · rw [(signatureHash_spec (fun b => b) c3Tx 0 [7, 7]).1 (by decide)]
    rfl
  · exact (signatureHash_spec (fun b => b) c3Tx 1 [7, 7]).2 (by decide)

/-! ## The TRANSFER ⇒ CRITICAL key invariant -/

/-- Every identity key whose purpose is TRANSFER has security level
CRITICAL. -/
def transferImpliesCritical (ks : List IdentityKeyConfig) : Prop :=
  ∀ k ∈ ks, k.purpose = KeyPurpose.TRANSFER → k.securityLevel = SecurityLevel.CRITICAL

/-- The same invariant over the pending manage-mode keys. -/
def manageTransferImpliesCritical (ks : List ManageNewKeyConfig) : Prop :=
  ∀ k ∈ ks, k.purpose = KeyPurpose.TRANSFER → k.securityLevel = SecurityLevel.CRITICAL

/-- The TRANSFER ⇒ CRITICAL invariant over a whole bridge state. -/
def keyConfigInvariant (s : BridgeState) : Prop :=
  transferImpliesCritical s.identityKeys ∧
  manageTransferImpliesCritical (s.manageKeysToAdd.getD [])

instance (ks : List IdentityKeyConfig) : Decidable (transferImpliesCritical ks) :=
  List.decidableBAll _ ks

instance (ks : List ManageNewKeyConfig) : Decidable (manageTransferImpliesCritical ks) :=
  List.decidableBAll _ ks

instance (s : BridgeState) : Decidable (keyConfigInvariant s) :=
  instDecidableAnd

/-- A derivation oracle yielding fixed key material (sufficient for claims
that do not inspect the derived bytes). -/
def trivialDerive : DeriveFn := fun _ _ _ =>
  { privateKey := [], publicKey := [], derivationPath := "" }

/-- The update `{ purpose: 'TRANSFER' }` with no accompanying security
level. -/
def transferUpdate : KeyUpdates :=
  { keyType := none, purpose := some .TRANSFER, securityLevel := none, name := none }

/-- Claim C6 counterexample: `updateIdentityKey` does *not* coerce — setting
purpose TRANSFER on a key of security level HIGH leaves the level HIGH, so
a state satisfying the TRANSFER ⇒ CRITICAL invariant steps to one violating
it. -/
theorem updateIdentityKey_breaks_transfer_invariant :
    keyConfigInvariant (sampleState [sampleKey 1 .AUTHENTICATION .HIGH]) ∧
    updateIdentityKey trivialDerive (sampleState [sampleKey 1 .AUTHENTICATION .HIGH])
        1 transferUpdate =
      .ok (sampleState [{ sampleKey 1 .AUTHENTICATION .HIGH with purpose := .TRANSFER }]) ∧
    ¬ keyConfigInvariant
        (sampleState [{ sampleKey 1 .AUTHENTICATION .HIGH with purpose := .TRANSFER }]) :=
  ⟨by decide, by rfl, by decide⟩

/-- The key-configuration transitions named by claim C6, as a step
relation.  The `update` step carries the side condition of the amended
claim: the effective purpose/security-level pair of the targeted key must
itself respect TRANSFER ⇒ CRITICAL, because `updateIdentityKey` performs no
coercion. -/
inductive KeyConfigStep (derive : DeriveFn) : BridgeState → BridgeState → Prop where
  | generateDefault (s : BridgeState) (network : Network) (mnemonic : String) :
      KeyConfigStep derive s
        { s with identityKeys := generateDefaultIdentityKeysHD derive network mnemonic }
  | add (s s' : BridgeState) :
      addIdentityKey derive s = .ok s' → KeyConfigStep derive s s'
  | update (s s' : BridgeState) (keyId : Nat) (u : KeyUpdates) :
      (∀ k ∈ s.identityKeys, k.id = keyId →
        u.purpose.getD k.purpose = KeyPurpose.TRANSFER →
        u.securityLevel.getD k.securityLevel = SecurityLevel.CRITICAL) →
      updateIdentityKey derive s keyId u = .ok s' → KeyConfigStep derive s s'
  | manage (s : BridgeState) (tempId : String) (u : ManageKeyUpdates) :
      KeyConfigStep derive s (updateManageNewKey s tempId u)

theorem mem_mapWithIndexFrom {α β : Type} {f : Nat → α → β} {b : β} :
    ∀ (l : List α) (n : Nat), b ∈ mapWithIndexFrom f n l → ∃ j a, a ∈ l ∧ b = f j a := by
  intro l
  induction l with
  | nil => intro n h; exact absurd h (List.not_mem_nil _)
  | cons a rest ih =>
      intro n h
      rcases List.mem_cons.mp h with h | h
      · exact ⟨n, a, List.mem_cons_self _ _, h⟩
      · obtain ⟨j, x, hx, hb⟩ := ih (n + 1) h
        exact ⟨j, x, List.mem_cons_of_mem _ hx, hb⟩

/-- Claim C6 (amended): the TRANSFER ⇒ CRITICAL invariant is preserved by
`generateDefaultIdentityKeysHD`, `addIdentityKey` and `updateManageNewKey`
(which silently coerces the level to CRITICAL), and by `updateIdentityKey`
only under the side condition that the update's effective purpose/level
pair for the targeted key respects the invariant — without that condition
`updateIdentityKey` can break it, as the counterexample shows. -/
theorem keyConfigInvariant_preserved (derive : DeriveFn) (s s' : BridgeState)
    (hinv : keyConfigInvariant s) (hstep : KeyConfigStep derive s s') :
    keyConfigInvariant s' := by
  cases hstep with
  | generateDefault network mnemonic =>
      refine ⟨?_, hinv.2⟩
      intro k hk
      simp only [generateDefaultIdentityKeysHD, generateIdentityKeyFromMnemonic,
        createIdentityKeyFromKeyPair, List.mem_cons, List.mem_singleton] at hk
      rcases hk with rfl | rfl | rfl | rfl | h
      · intro hc; cases hc
      · intro hc; cases hc
      · intro hc; cases hc
      · intro _; rfl
      · exact absurd h (List.not_mem_nil _)
  | add s2 hok =>
      unfold addIdentityKey at hok
      cases hm : s.mnemonic with
      | none => rw [hm] at hok; cases hok
      | some m =>
          rw [hm] at hok
          injection hok with h
          subst h
          refine ⟨?_, hinv.2⟩
          intro k hk
          rcases List.mem_append.mp hk with h | h
          · exact hinv.1 k h
          · rcases List.mem_singleton.mp h with rfl
            intro hc; cases hc
  | update s2 keyId u hcond hok =>
      unfold updateIdentityKey at hok
      cases hm : s.mnemonic with
      | none => rw [hm] at hok; cases hok
      | some m =>
          rw [hm] at hok
          injection hok with h
          subst h
          refine ⟨?_, hinv.2⟩
          intro k hk
          obtain ⟨j, a, ha, rfl⟩ := mem_mapWithIndexFrom _ _ hk
          by_cases hid : a.id ≠ keyId
          · rw [if_pos hid]
            exact hinv.1 a ha
          · rw [if_neg hid]
            have hkeyId : a.id = keyId := not_ne_iff.mp hid
            have hc := hcond a ha hkeyId
            split
            · split
              · exact hc
              · exact hc
            · exact hc
  | manage tempId u =>
      refine ⟨hinv.1, ?_⟩
      intro k hk
      simp only [updateManageNewKey, Option.getD_some] at hk
      obtain ⟨a, ha, rfl⟩ := List.mem_map.mp hk
      by_cases ht : a.tempId ≠ tempId
      · rw [if_pos ht]
        exact hinv.2 a ha
      · rw [if_neg ht]
        by_cases hcase : u.purpose.getD a.purpose = KeyPurpose.TRANSFER ∧
            u.securityLevel.getD a.securityLevel ≠ SecurityLevel.CRITICAL
        · rw [if_pos hcase]
          intro _; rfl
        · rw [if_neg hcase]
          intro hp
          by_contra hlvl
          exact hcase ⟨hp, hlvl⟩

/-- Claim C6 witness: the amended preservation theorem applied to a
concrete `updateManageNewKey` step from the empty sample state. -/
theorem keyConfigInvariant_preserved_witness :
    keyConfigInvariant (updateManageNewKey (sampleState []) "t"
      { keyType := none, purpose := some .TRANSFER, securityLevel := none }) :=
  keyConfigInvariant_preserved trivialDerive (sampleState [])
    (updateManageNewKey (sampleState []) "t"
      { keyType := none, purpose := some .TRANSFER, securityLevel := none })
    (by decide)
    (KeyConfigStep.manage (sampleState []) "t"
      { keyType := none, purpose := some .TRANSFER, securityLevel := none })

end DashBridge
